import Mathlib

/-!
Verification development for the `apns-ms` push-notification provider.

The Go sources are shallowly embedded: byte slices become `List Nat`
(each element a byte value), Go strings become `List Char`, machine
integers become `Nat`/`Int` with explicit `% 2^w` where a width matters,
and fallible functions return `Except`/`Option`.  Channel interactions
of the worker and client are modelled as pure functions over explicit
inputs (read/write outcomes, receiver readiness) that record the events
the Go code performs (sends, closes, reconnects).
-/

/-- Big-endian encoding of a 16-bit value (Go `binary.Write` of `uint16`). -/
def be16 (n : Nat) : List Nat := [n / 256 % 256, n % 256]

/-- Big-endian encoding of a 32-bit value (Go `binary.Write` of `uint32`). -/
def be32 (n : Nat) : List Nat :=
  [n / 16777216 % 256, n / 65536 % 256, n / 256 % 256, n % 256]

/-- Big-endian encoding of a 64-bit value (Go `binary.Write` of `int64`,
two's complement handled by the caller via `% 2^64`). -/
def be64 (n : Nat) : List Nat :=
  [n / 72057594037927936 % 256, n / 281474976710656 % 256,
   n / 1099511627776 % 256, n / 4294967296 % 256,
   n / 16777216 % 256, n / 65536 % 256, n / 256 % 256, n % 256]

/-- Value of a big-endian byte sequence (Go `binary.Read` into `uint32`
reads 4 bytes this way). -/
def be32val (bs : List Nat) : Nat :=
  bs.foldl (fun acc b => acc * 256 + b % 256) 0

/-- Value of one hex digit, accepting both cases (Go `encoding/hex`). -/
def hexDigitVal (c : Char) : Option Nat :=
  if 48 ≤ c.toNat ∧ c.toNat ≤ 57 then some (c.toNat - 48)
  else if 97 ≤ c.toNat ∧ c.toNat ≤ 102 then some (c.toNat - 87)
  else if 65 ≤ c.toNat ∧ c.toNat ≤ 70 then some (c.toNat - 55)
  else none

/-- Go `hex.DecodeString`: pairs of hex digits to bytes; `none` on an odd
length or an invalid digit (Go returns a non-nil error in those cases). -/
def hexDecode : List Char → Option (List Nat)
  | [] => some []
  | [_] => none
  | c1 :: c2 :: rest =>
    match hexDigitVal c1, hexDigitVal c2, hexDecode rest with
    | some h, some l, some bs => some ((h * 16 + l) :: bs)
    | _, _, _ => none

/-- Lowercase hex digit character for a value below 16. -/
def hexChar (n : Nat) : Char :=
  if n < 10 then Char.ofNat (48 + n) else Char.ofNat (87 + n)

/-- Go `hex.EncodeToString`: lowercase hex of a byte slice. -/
def hexEncodeToString (bs : List Nat) : List Char :=
  bs.flatMap (fun b => [hexChar (b % 256 / 16), hexChar (b % 16)])

/-- UTF-8 bytes of one scalar value (Go strings are UTF-8 byte slices). -/
def utf8Bytes (c : Char) : List Nat :=
  let n := c.toNat
  if n < 128 then [n]
  else if n < 2048 then [192 + n / 64, 128 + n % 64]
  else if n < 65536 then [224 + n / 4096, 128 + n / 64 % 64, 128 + n % 64]
  else [240 + n / 262144, 128 + n / 4096 % 64, 128 + n / 64 % 64, 128 + n % 64]

/-- Go `encoding/json` string escaping with HTML escaping on (the default
used by `json.Marshal`): quote, backslash, control characters, and the
HTML characters are escaped, `U+2028`/`U+2029` get `\u` escapes, all
other runes pass through as UTF-8. -/
def jsonEscapeChar (c : Char) : List Nat :=
  let n := c.toNat
  if n < 128 then
    if n = 34 then [92, 34]
    else if n = 92 then [92, 92]
    else if n = 10 then [92, 110]
    else if n = 13 then [92, 114]
    else if n = 9 then [92, 116]
    else if n < 32 ∨ n = 60 ∨ n = 62 ∨ n = 38 then
      [92, 117, 48, 48, (hexChar (n / 16)).toNat, (hexChar (n % 16)).toNat]
    else [n]
  else if n = 8232 then [92, 117, 50, 48, 50, 56]
  else if n = 8233 then [92, 117, 50, 48, 50, 57]
  else utf8Bytes c

/-- Rendered JSON string literal: quote, escaped characters, quote. -/
def jsonStringBytes (s : List Char) : List Nat :=
  34 :: (s.flatMap jsonEscapeChar ++ [34])

/-- Rendered JSON integer (Go marshals `int` as plain decimal). -/
def jsonIntBytes (i : Int) : List Nat :=
  (toString i).toList.map Char.toNat

/-- Comma-separated concatenation of rendered JSON fragments. -/
def jsonCommaSep (xs : List (List Nat)) : List Nat :=
  (List.intersperse [44] xs).flatten

/-- Rendered JSON array of strings (Go `[]string`). -/
def jsonStringArrayBytes (vs : List (List Char)) : List Nat :=
  91 :: (jsonCommaSep (vs.map jsonStringBytes) ++ [93])

/-- Rendered JSON object from already-rendered field values, emitted in
the given order. -/
def jsonObjBytes (fields : List (List Char × List Nat)) : List Nat :=
  123 :: (jsonCommaSep (fields.map fun kv => jsonStringBytes kv.1 ++ 58 :: kv.2) ++ [125])

/-- Byte-wise (for ASCII: lexicographic) string order used by Go's
`sort.Strings` when `json.Marshal` sorts map keys. -/
def lexLt : List Char → List Char → Bool
  | _, [] => false
  | [], _ :: _ => true
  | a :: as, b :: bs =>
    if a.toNat < b.toNat then true
    else if b.toNat < a.toNat then false
    else lexLt as bs

/-- Insertion into a key-sorted field list. -/
def insertField (kv : List Char × List Nat) :
    List (List Char × List Nat) → List (List Char × List Nat)
  | [] => [kv]
  | kv2 :: rest =>
    if lexLt kv.1 kv2.1 then kv :: kv2 :: rest else kv2 :: insertField kv rest

/-- Sort fields by key, as `json.Marshal` does for Go maps. -/
def sortFields (fields : List (List Char × List Nat)) : List (List Char × List Nat) :=
  fields.foldr insertField []

/-- Alert dictionary of `src/apns/command.go` (`Alert` struct); every
field carries `omitempty` in its json tag, string fields are omitted when
empty and slice fields when of length zero. -/
structure Alert where
  title : List Char
  body : List Char
  titleLocKey : List Char
  titleLocArgs : List (List Char)
  actionLocKey : List Char
  locKey : List Char
  locArgs : List (List Char)
  launchImage : List Char
deriving DecidableEq

/-- Content of `Aps.Alert` (a Go `interface{}` holding either a plain
string or an `*Alert` dictionary in this code base). -/
inductive AlertContent where
  | text (s : List Char)
  | dict (a : Alert)
deriving DecidableEq

/-- The `Aps` struct of `src/apns/command.go`; all fields `omitempty`.
`alert := none` models a nil interface value. -/
structure Aps where
  alert : Option AlertContent
  badge : Int
  sound : List Char
  contentAvailable : Int
  category : List Char
deriving DecidableEq

/-- A custom payload value (Go `interface{}`); the code base only ever
stores JSON-marshalable values, modelled here as strings and integers. -/
inductive CustomValue where
  | str (s : List Char)
  | int (i : Int)
deriving DecidableEq

/-- The `Payload` struct: an optional `*Aps` plus the custom top-level
fields (`customValues map[string]interface{}`, keys unique). -/
structure Payload where
  aps : Option Aps
  customValues : List (List Char × CustomValue)
deriving DecidableEq

/-- Helper emitting a string struct field unless empty (`omitempty`). -/
def strField (name : String) (v : List Char) : List (List Char × List Nat) :=
  if v = [] then [] else [(name.toList, jsonStringBytes v)]

/-- Helper emitting a string-slice struct field unless empty. -/
def arrField (name : String) (vs : List (List Char)) : List (List Char × List Nat) :=
  if vs = [] then [] else [(name.toList, jsonStringArrayBytes vs)]

/-- JSON rendering of an `Alert` dictionary, fields in declaration order
with their json tags: title, body, title-loc-key, title-loc-args,
action-loc-key, loc-key, loc-args, launch-image. -/
def Alert.jsonBytes (a : Alert) : List Nat :=
  jsonObjBytes
    (strField "title" a.title ++ strField "body" a.body ++
     strField "title-loc-key" a.titleLocKey ++ arrField "title-loc-args" a.titleLocArgs ++
     strField "action-loc-key" a.actionLocKey ++ strField "loc-key" a.locKey ++
     arrField "loc-args" a.locArgs ++ strField "launch-image" a.launchImage)

/-- JSON rendering of an alert interface value. -/
def AlertContent.jsonBytes : AlertContent → List Nat
  | .text s => jsonStringBytes s
  | .dict a => a.jsonBytes

/-- JSON rendering of the `Aps` struct, fields in declaration order with
`omitempty` semantics (zero ints, empty strings and nil interfaces are
omitted). -/
def Aps.jsonBytes (a : Aps) : List Nat :=
  jsonObjBytes
    ((match a.alert with
      | none => []
      | some c => [("alert".toList, c.jsonBytes)]) ++
     (if a.badge = 0 then [] else [("badge".toList, jsonIntBytes a.badge)]) ++
     strField "sound" a.sound ++
     (if a.contentAvailable = 0 then []
      else [("content-available".toList, jsonIntBytes a.contentAvailable)]) ++
     strField "category" a.category)

/-- JSON rendering of a custom field value. -/
def CustomValue.jsonBytes : CustomValue → List Nat
  | .str s => jsonStringBytes s
  | .int i => jsonIntBytes i

/-- Errors produced while encoding a notification: either a failed hex
decode (the `encoding/hex` error is returned as-is by the Go code) or an
`errors.New` message. -/
inductive NotificationError where
  | hexDecodeFailed
  | message (msg : List Char)
deriving DecidableEq

/-- Message of the missing-`aps` error in `Payload.MarshalJSON`. -/
def apsRequiredMsg : List Char :=
  "apns/notification: \x27aps\x27 object is required".toList

/-- Message of the reserved-`aps` error in `Payload.MarshalJSON`. -/
def apsReservedMsg : List Char :=
  "apns/notification: \x27aps\x27 is a reserved and cannot be used for custom field".toList

/-- Message of the device-token validation error in `Notification.Bytes`
(the constant 32 is `DeviceTokenItemLength` interpolated by the code). -/
def deviceTokenMsg : List Char :=
  "apns/notification: Device token has to be hex encoded 32 bytes long binary string".toList

/-- Message of the payload-size validation error in `Notification.Bytes`. -/
def payloadSizeMsg : List Char :=
  "apns/notification: Notification payload size has to be 2048 bytes at maximum".toList

/-- Message of the identifier validation error in `Notification.Bytes`
(wording, including the stray plural, as in the source). -/
def identifierMsg : List Char :=
  "apns/notification: Notification identifier has to be a hex encoded 4 bytes longs binary string".toList

/-- `Payload.MarshalJSON` of `src/apns/command.go`: requires a non-nil
`aps`, rejects a custom field named `aps`, then marshals the combined
map; `json.Marshal` emits Go map keys in sorted order. -/
def Payload.marshalJSON (p : Payload) : Except NotificationError (List Nat) :=
  match p.aps with
  | none => .error (.message apsRequiredMsg)
  | some a =>
    if p.customValues.any (fun kv => kv.1 = "aps".toList) then
      .error (.message apsReservedMsg)
    else
      .ok (jsonObjBytes (sortFields
        (("aps".toList, a.jsonBytes) ::
         p.customValues.map (fun kv => (kv.1, kv.2.jsonBytes)))))

/-- `Payload.JSON` as called on the notification's `*Payload` field: a
nil pointer marshals to the JSON literal `null`, otherwise
`MarshalJSON` runs (the outer `json.Marshal` compaction leaves the
already-escaped bytes unchanged). -/
def payloadJSON : Option Payload → Except NotificationError (List Nat)
  | none => .ok ("null".toList.map Char.toNat)
  | some p => p.marshalJSON

/-- The `Notification` struct: device token and identifier as hex
strings, optional absolute expiration (its Unix seconds, Go `int64`),
priority a `uint8`. -/
structure Notification where
  deviceToken : List Char
  payload : Option Payload
  notificationIdentifier : List Char
  expirationDate : Option Int
  priority : Nat
deriving DecidableEq

/-- `Notification.Bytes` of `src/apns/command.go`: emits the device
token, payload, identifier, optional expiration date and priority items
in order, with the validations of the source.  Note the source writes
`n.ExpirationDate.Unix()`, a Go `int64`, so `binary.Write` emits eight
bytes for the expiration item while its header declares
`ExpirationDateItemLength = 4`. -/
def Notification.bytes (n : Notification) : Except NotificationError (List Nat) :=
  match hexDecode n.deviceToken with
  | none => .error .hexDecodeFailed
  | some token =>
    if token.length = 32 then
      match payloadJSON n.payload with
      | .error e => .error e
      | .ok payload =>
        if payload.length > 2048 then .error (.message payloadSizeMsg)
        else
          match hexDecode n.notificationIdentifier with
          | none => .error .hexDecodeFailed
          | some ident =>
            if ident.length ≠ 4 then .error (.message identifierMsg)
            else
              .ok ((1 :: (be16 32 ++ token)) ++
                   (2 :: (be16 (payload.length % 65536) ++ payload)) ++
                   (3 :: (be16 4 ++ ident)) ++
                   (match n.expirationDate with
                    | some t => 4 :: (be16 4 ++ be64 ((t % (18446744073709551616 : Int)).toNat))
                    | none => []) ++
                   (5 :: (be16 1 ++ [n.priority % 256])))
    else .error (.message deviceTokenMsg)

/-- `PushNotificationCommand.Bytes`: command byte 2, 32-bit big-endian
frame length, then the notification bytes. -/
def pushNotificationCommandBytes (n : Notification) : Except NotificationError (List Nat) :=
  match n.bytes with
  | .error e => .error e
  | .ok nb => .ok (2 :: (be32 (nb.length % 4294967296) ++ nb))

/-- The fixed APNS status table `PushNotificationErrorStatuses`
(`map[uint8]string`); a lookup miss yields the empty string in Go,
modelled as `none`. -/
def pushNotificationErrorStatuses (status : Nat) : Option (List Char) :=
  if status = 0 then some "No errors encountered".toList
  else if status = 1 then some "Processing error".toList
  else if status = 2 then some "Missing device token".toList
  else if status = 3 then some "Missing topic".toList
  else if status = 4 then some "Missing payload".toList
  else if status = 5 then some "Invalid token size".toList
  else if status = 6 then some "Invalid topic size".toList
  else if status = 7 then some "Invalid payload size".toList
  else if status = 8 then some "Invalid token".toList
  else if status = 10 then some "Shutdown".toList
  else if status = 255 then some "Unknown".toList
  else none

/-- Message of the unrecognized-response error. -/
def unrecognizedResponseMsg : List Char := "apns: Unrecognized APNS response".toList

/-- `NewCommandErrorFromAPNSResponse` of `src/apns/command.go`, reduced
to the underlying error it stores: a non-6-byte input gives the
unrecognized-response error; otherwise the status is read from byte 1
(byte 0 is never inspected) and the identifier is the hex of bytes 2..6;
a status missing from the table leaves the underlying error nil
(`none`). -/
def newCommandErrorFromAPNSResponse (data : List Nat) : Option (List Char) :=
  if data.length ≠ 6 then some unrecognizedResponseMsg
  else
    match pushNotificationErrorStatuses (data.getD 1 0 % 256) with
    | some desc =>
      some ("apns: ".toList ++ desc ++ " for notification #".toList ++
            hexEncodeToString (data.drop 2))
    | none => none

/-- Message of the unrecognized feedback entry error. -/
def unrecognizedEntryMsg : List Char := "apns: Unrecognized Feedback Service entry".toList

/-- One decoded feedback tuple: `time.Unix(int64(timestamp), 0)` is kept
as its seconds since epoch, the token as the lowercase hex string. -/
structure FeedbackDeviceEntry where
  timestampSec : Nat
  deviceToken : List Char
deriving DecidableEq

/-- `FeedbackResponse.addEntryFromBytes` of the feedback code: rejects
any input whose length differs from 4+2+32 = 38, otherwise appends an
entry whose timestamp is the big-endian uint32 of bytes 0..4 and whose
token is the hex of bytes 6..38 (the 2-byte length field is never
read).  Returns the grown device list and the error value. -/
def FeedbackResponse.addEntryFromBytes (devices : List FeedbackDeviceEntry)
    (data : List Nat) : List FeedbackDeviceEntry × Option (List Char) :=
  if data.length ≠ 38 then (devices, some unrecognizedEntryMsg)
  else (devices ++ [⟨be32val (data.take 4), hexEncodeToString (data.drop 6)⟩], none)

/-- Error value of one socket read, after Go's error classification:
no error, `io.EOF`, a `net.Error` timeout, or any other error. -/
inductive ReadErrKind where
  | noErr
  | eofErr
  | timeoutErr
  | otherErr
deriving DecidableEq

/-- One iteration's view of the feedback socket: `n` bytes were read
into the persistent 38-byte buffer whose full contents after the read
are `buf` (a short read leaves stale bytes in the tail), and `err` is
the read's error value. -/
structure FeedbackRead where
  n : Nat
  buf : List Nat
  err : ReadErrKind
deriving DecidableEq

/-- The read loop of `Client.CheckFeedbackService`: whenever a read
returned bytes the whole 38-byte buffer is handed to
`addEntryFromBytes` and the returned error is discarded (the source
ignores the call's result); `io.EOF` and timeouts end the loop with a
nil error, any other error is only logged and the loop continues.  A
stream that never ends would block in Go, hence the `Option` result. -/
def checkFeedbackLoop (devices : List FeedbackDeviceEntry) :
    List FeedbackRead → Option (List FeedbackDeviceEntry × Option (List Char))
  | [] => none
  | r :: rs =>
    let devices2 := if r.n > 0 then (FeedbackResponse.addEntryFromBytes devices r.buf).1 else devices
    match r.err with
    | .noErr => checkFeedbackLoop devices2 rs
    | .eofErr => some (devices2, none)
    | .timeoutErr => some (devices2, none)
    | .otherErr => checkFeedbackLoop devices2 rs

/-- Errors a worker can produce while executing one command, by source
site: a failed `cmd.Bytes()`, a non-EOF write error, the peer-closed
error raised on an EOF write, the peer-closed error raised when the
6-byte read hit EOF, a non-EOF non-timeout read error, and the
`CommandError` built from an APNS error response (carrying the decoded
underlying message, `none` when the status was unknown). -/
inductive WorkerErr where
  | encodeFailed
  | writeOther
  | peerClosedOnWrite
  | peerClosedAfterRead
  | readOther
  | apnsResponse (msg : Option (List Char))
deriving DecidableEq

/-- Error value of the frame write, after Go's classification. -/
inductive WriteErrKind where
  | noErr
  | eofErr
  | otherErr
deriving DecidableEq

deriving instance DecidableEq for Except

/-- Inputs that determine one `worker.executeCommand` run: the encode
result, the write outcome, the bounded read's outcome (`readCount`
bytes placed in the 6-byte buffer whose contents are `readBuf`), and
whether a receiver was waiting on the command's unbuffered error
channel at the non-blocking send inside `executeCommand`. -/
structure ExecInput where
  encodeResult : Except WorkerErr (List Nat)
  writeErr : WriteErrKind
  readCount : Nat
  readBuf : List Nat
  readErr : ReadErrKind
  recvReadyAtRead : Bool
deriving DecidableEq

/-- Observable effects of one `worker.executeCommand` run: errors sent
on the command's private channel, errors sent on the worker's
`errorSignal` (the process-wide stream fan-in), whether `reconnect()`
ran (which posts the pause signal), and the function's returned error. -/
structure ExecOutcome where
  cmdDeliveries : List WorkerErr
  signalDeliveries : List WorkerErr
  reconnectScheduled : Bool
  ret : Option WorkerErr
deriving DecidableEq

/-- `worker.executeCommand` of the worker source: encode, write (EOF ⇒
peer-closed error plus reconnect), then the 500 ms bounded read.  A
timeout nulls the read error; any read bytes decode into a
`CommandError` that is sent on `errorSignal` (blocking) and offered to
the command's channel by a non-blocking `select` with a `default` arm;
bytes read or EOF schedule a reconnect, EOF is replaced by the
peer-closed-after-read error; the final error value is returned. -/
def executeCommand (inp : ExecInput) : ExecOutcome :=
  match inp.encodeResult with
  | .error e => ⟨[], [], false, some e⟩
  | .ok _ =>
    match inp.writeErr with
    | .eofErr => ⟨[], [], true, some .peerClosedOnWrite⟩
    | .otherErr => ⟨[], [], false, some .writeOther⟩
    | .noErr =>
      let e1 : ReadErrKind := match inp.readErr with
        | .timeoutErr => .noErr
        | e => e
      let apnsErr : WorkerErr := .apnsResponse (newCommandErrorFromAPNSResponse inp.readBuf)
      let signals := if inp.readCount > 0 then [apnsErr] else []
      let toCmd := if inp.readCount > 0 ∧ inp.recvReadyAtRead then [apnsErr] else []
      let reconn := inp.readCount > 0 ∨ e1 = .eofErr
      let ret : Option WorkerErr := match e1 with
        | .eofErr => some .peerClosedAfterRead
        | .otherErr => some .readOther
        | _ => none
      ⟨toCmd, signals, reconn, ret⟩

/-- Observable effects of one pass of `worker.executionLoopRoutine`
around a received command. -/
structure LoopOutcome where
  cmdDeliveries : List WorkerErr
  signalDeliveries : List WorkerErr
  reconnectScheduled : Bool
  readyResignaled : Bool
  closes : Nat
deriving DecidableEq

/-- One pass of `worker.executionLoopRoutine` for a received command:
run `executeCommand`; a non-nil returned error is wrapped in a
`CommandError`, sent on `errorSignal` and offered to the command's
channel by a non-blocking `select` (`recvReadyAtLoop` says whether a
receiver was waiting there); the worker re-signals ready unless a pause
(posted by `reconnect()`) is pending; finally the command's error
channel is closed - the single `close` site for executed commands. -/
def loopStep (inp : ExecInput) (recvReadyAtLoop : Bool) : LoopOutcome :=
  let o := executeCommand inp
  let retSignals := match o.ret with
    | some e => [e]
    | none => []
  let retToCmd := match o.ret with
    | some e => if recvReadyAtLoop then [e] else []
    | none => []
  { cmdDeliveries := o.cmdDeliveries ++ retToCmd
    signalDeliveries := o.signalDeliveries ++ retSignals
    reconnectScheduled := o.reconnectScheduled
    readyResignaled := !o.reconnectScheduled
    closes := 1 }

/-- Message of the queue-full error in `Client.ExecuteCommand`. -/
def queueFullMsg : List Char := "apns: Queue is full, dismissing command".toList

/-- Non-blocking send on a buffered channel with no waiting receiver:
succeeds exactly when the buffer holds fewer elements than its
capacity. -/
def chanTrySend {α : Type} (buf : List α) (cap : Nat) (x : α) : Option (List α) :=
  if buf.length < cap then some (buf ++ [x]) else none

/-- Result of `Client.ExecuteCommand`: the command queue afterwards,
whether the command's error channel was closed, and the returned error. -/
structure SubmitOutcome (α : Type) where
  queue : List α
  closedChannel : Bool
  err : Option (List Char)
deriving DecidableEq

/-- `Client.ExecuteCommand` of the client source: a non-blocking
`select` tries to enqueue the command on the bounded `commandsQueue`;
on the `default` arm the command's error channel is closed and a
queue-full `CommandError` is returned. -/
def clientExecuteCommand {α : Type} (queue : List α) (cap : Nat) (cmd : α) :
    SubmitOutcome α :=
  match chanTrySend queue cap cmd with
  | some q2 => ⟨q2, false, none⟩
  | none => ⟨queue, true, some queueFullMsg⟩

/-- Number of times a submitted command's error channel is closed along
its lifecycle: once by `Client.ExecuteCommand` when the queue rejects
it, otherwise - the command is then dequeued by the dispatcher and
handed to exactly one worker - once by that worker's loop pass. -/
def commandTotalCloses {α : Type} (queue : List α) (cap : Nat) (cmd : α)
    (inp : ExecInput) (recvReadyAtLoop : Bool) : Nat :=
  let s := clientExecuteCommand queue cap cmd
  (if s.closedChannel then 1 else 0) +
  (if s.closedChannel then 0 else (loopStep inp recvReadyAtLoop).closes)

/-- Item-level parse of a frame body per the spec's wire format: each
item is one id byte, a 2-byte big-endian declared length, then exactly
that many payload bytes; `none` when the body does not decompose this
way.  When the parse succeeds the declared sizes sum to the body length
by construction. -/
def parseItemsFuel : Nat → List Nat → Option (List (Nat × List Nat))
  | _, [] => some []
  | 0, _ :: _ => none
  | fuel + 1, id :: hi :: lo :: rest =>
    let len := hi * 256 + lo
    if len ≤ rest.length then
      match parseItemsFuel fuel (rest.drop len) with
      | some items => some ((id, rest.take len) :: items)
      | none => none
    else none
  | _ + 1, _ => none

/-- Item-level parse with enough fuel for any input (each item consumes
at least three bytes). -/
def parseItems (body : List Nat) : Option (List (Nat × List Nat)) :=
  parseItemsFuel body.length body

/-- Sum of the item sizes (header plus declared payload) of a parsed
item list. -/
def declaredSize (items : List (Nat × List Nat)) : Nat :=
  items.foldl (fun acc it => acc + 3 + it.2.length) 0

/-- Whether `needle` occurs as a contiguous substring of `hay`. -/
def containsSub (needle hay : List Char) : Bool :=
  hay.tails.any (fun t => needle.isPrefixOf t)

/-- Whether an encode attempt succeeded. -/
def encodeOk : Except NotificationError (List Nat) → Bool
  | .ok _ => true
  | .error _ => false

/-- The bytes of a successful encode (empty on failure). -/
def okBytes : Except NotificationError (List Nat) → List Nat
  | .ok b => b
  | .error _ => []

/-- Spec-side condition: the device token hex-decodes to 32 bytes. -/
def deviceTokenOk (n : Notification) : Bool :=
  match hexDecode n.deviceToken with
  | some t => t.length == 32
  | none => false

/-- Spec-side condition: the identifier hex-decodes to 4 bytes. -/
def identifierOk (n : Notification) : Bool :=
  match hexDecode n.notificationIdentifier with
  | some i => i.length == 4
  | none => false

/-- Spec-side condition: the payload serializes (aps present, no custom
field named aps) and the JSON is at most 2048 bytes. -/
def payloadOk (n : Notification) : Bool :=
  match payloadJSON n.payload with
  | .ok b => b.length ≤ 2048
  | .error _ => false

/-- Length of the serialized payload (0 when serialization fails). -/
def payloadJSONLength (n : Notification) : Nat :=
  match payloadJSON n.payload with
  | .ok b => b.length
  | .error _ => 0

/-- A 64-hex-character all-zero device token. -/
def tok64 : List Char := List.replicate 64 '0'

/-- A minimal valid payload: aps with the alert string "x". -/
def payloadX : Payload :=
  ⟨some ⟨some (.text ['x']), 0, [], 0, []⟩, []⟩

/-- Valid notification carrying an expiration date (Unix second 1). -/
def nExp : Notification :=
  ⟨tok64, some payloadX, "aabbccdd".toList, some 1, 10⟩

/-- The same notification without an expiration date. -/
def nNoExp : Notification :=
  ⟨tok64, some payloadX, "aabbccdd".toList, none, 10⟩

/-- Notification with a 62-hex-character (31-byte) device token. -/
def n62 : Notification :=
  ⟨List.replicate 62 '0', some payloadX, "aabbccdd".toList, none, 10⟩

/-- Notification whose payload has a custom top-level field named aps. -/
def nReserved : Notification :=
  ⟨tok64, some ⟨some ⟨some (.text ['x']), 0, [], 0, []⟩, [("aps".toList, .int 1)]⟩,
   "aabbccdd".toList, none, 10⟩

/-- Notification whose payload JSON is exactly 2048 bytes: the object
is the 20-byte skeleton around a 2028-character alert string. -/
def n2048 : Notification :=
  ⟨tok64, some ⟨some ⟨some (.text (List.replicate 2028 'a')), 0, [], 0, []⟩, []⟩,
   "aabbccdd".toList, none, 10⟩

/-- Notification whose payload JSON is exactly 2049 bytes. -/
def n2049 : Notification :=
  ⟨tok64, some ⟨some ⟨some (.text (List.replicate 2029 'a')), 0, [], 0, []⟩, []⟩,
   "aabbccdd".toList, none, 10⟩

/-- A well-formed 38-byte feedback record: timestamp 1, declared token
length 32, a 32-byte zero token. -/
def feedbackRec1 : List Nat := [0, 0, 0, 1] ++ [0, 32] ++ List.replicate 32 0

/-- Contents of the persistent 38-byte feedback buffer after a short
read of 10 bytes: the 10 fresh bytes of a truncated record followed by
28 stale bytes left over from the previous full record. -/
def feedbackShortBuf : List Nat :=
  [0, 0, 0, 2, 0, 32, 255, 255, 255, 255] ++ List.replicate 28 0

/-- Escaping a lowercase letter is the identity on its byte. -/
theorem flatMapEscapeReplicate (k : Nat) :
    (List.replicate k 'a').flatMap jsonEscapeChar = List.replicate k 97 := by
  induction k with
  | zero => simp
  | succ n ih =>
    simp [List.replicate_succ, ih, show jsonEscapeChar 'a' = [97] from by decide]

/-- Serialized payload of an aps whose alert is a replicated letter:
the 17-byte object prefix, the escaped string, the 3-byte suffix. -/
theorem marshalAlertReplicate (k : Nat) :
    payloadJSON (some ⟨some ⟨some (.text (List.replicate k 'a')), 0, [], 0, []⟩, []⟩)
      = .ok ([123, 34, 97, 112, 115, 34, 58, 123, 34, 97, 108, 101, 114, 116, 34, 58, 34] ++
             (List.replicate k 97 ++ [34, 125, 125])) := by
  simp [payloadJSON, Payload.marshalJSON, sortFields, insertField, Aps.jsonBytes,
        AlertContent.jsonBytes, strField, jsonObjBytes, jsonCommaSep, jsonStringBytes,
        flatMapEscapeReplicate,
        show jsonEscapeChar 'a' = [97] from by decide,
        show jsonEscapeChar 'p' = [112] from by decide,
        show jsonEscapeChar 's' = [115] from by decide,
        show jsonEscapeChar 'l' = [108] from by decide,
        show jsonEscapeChar 'e' = [101] from by decide,
        show jsonEscapeChar 'r' = [114] from by decide,
        show jsonEscapeChar 't' = [116] from by decide]

/-- Length of the serialized payload of the replicated-letter alert. -/
theorem payloadLenReplicate (k : Nat) :
    payloadJSONLength ⟨tok64, some ⟨some ⟨some (.text (List.replicate k 'a')), 0, [], 0, []⟩, []⟩,
      "aabbccdd".toList, none, 10⟩ = 20 + k := by
  simp [payloadJSONLength, marshalAlertReplicate]
  omega

/-- A notification with the standard token and identifier and a payload
of at most 2048 serialized bytes encodes to the concatenated items. -/
theorem bytesTok64Ok (P : Option Payload) (pb : List Nat)
    (h : payloadJSON P = .ok pb) (hle : pb.length ≤ 2048) :
    Notification.bytes ⟨tok64, P, "aabbccdd".toList, none, 10⟩
      = .ok ((1 :: (be16 32 ++ List.replicate 32 0)) ++
             (2 :: (be16 (pb.length % 65536) ++ pb)) ++
             (3 :: (be16 4 ++ [170, 187, 204, 221])) ++ [] ++
             (5 :: (be16 1 ++ [10]))) := by
  simp [Notification.bytes, h, Nat.not_lt.mpr hle,
        show hexDecode tok64 = some (List.replicate 32 0) from by decide,
        show hexDecode ['a','a','b','b','c','c','d','d'] = some [170, 187, 204, 221] from by decide]

/-- A notification whose serialized payload exceeds 2048 bytes fails
with the payload-size error. -/
theorem bytesTok64TooBig (P : Option Payload) (pb : List Nat)
    (h : payloadJSON P = .ok pb) (hgt : pb.length > 2048) :
    Notification.bytes ⟨tok64, P, "aabbccdd".toList, none, 10⟩
      = .error (.message payloadSizeMsg) := by
  simp [Notification.bytes, h, hgt,
        show hexDecode tok64 = some (List.replicate 32 0) from by decide]

/-- Encoding succeeds exactly when the token decodes to 32 bytes, the
payload serializes to at most 2048 bytes, and the identifier decodes to
4 bytes. -/
theorem c6iff (n : Notification) :
    encodeOk (Notification.bytes n) = (deviceTokenOk n && payloadOk n && identifierOk n) := by
  unfold Notification.bytes deviceTokenOk payloadOk identifierOk encodeOk
  cases h1 : hexDecode n.deviceToken with
  | none => simp
  | some t =>
    by_cases h2 : t.length = 32
    · simp only [h2, if_true]
      cases h3 : payloadJSON n.payload with
      | error e => simp
      | ok pb =>
        by_cases h4 : pb.length > 2048
        · simp [h4, Nat.not_le.mpr h4]
        · simp only [h4, if_false]
          cases h5 : hexDecode n.notificationIdentifier with
          | none => simp [Nat.not_lt.mp h4]
          | some i =>
            by_cases h6 : i.length = 4 <;> simp [h6, Nat.not_lt.mp h4]
    · simp [h2]

/-- C1: for the notification `nExp` (which carries an expiration date)
the encode succeeds and the frame does begin with byte 2, a big-endian
length 81 and exactly 81 further bytes, but the body does NOT decompose
into items whose declared sizes sum to 81: the expiration item header
declares length 4 while eight bytes (the big-endian int64 Unix time 1)
follow it, so the item parse desynchronizes and fails, refuting the
claim; without an expiration date (`nNoExp`) the body parses into items
1, 2, 3, 5 whose declared sizes sum to the body length, confirming the
rest of the claim and isolating the defect to the expiration item. -/
theorem c1_expiration_item_length_mismatch :
    encodeOk (pushNotificationCommandBytes nExp) = true
    ∧ (okBytes (pushNotificationCommandBytes nExp)).take 5 = [2, 0, 0, 0, 81]
    ∧ (okBytes (pushNotificationCommandBytes nExp)).length = 86
    ∧ parseItems ((okBytes (pushNotificationCommandBytes nExp)).drop 5) = none
    ∧ (okBytes (pushNotificationCommandBytes nExp)).drop 71
        = [4, 0, 4] ++ [0, 0, 0, 0, 0, 0, 0, 1] ++ [5, 0, 1, 10]
    ∧ (parseItems (okBytes (Notification.bytes nNoExp))).map
        (fun items => (declaredSize items, items.map Prod.fst))
        = some ((okBytes (Notification.bytes nNoExp)).length, [1, 2, 3, 5]) := by decide

/-- C2 counterexample: for the 6-byte input `[0, 9, aa, bb, cc, dd]`
the first byte differs from 8, so the claim demands the unrecognized
response protocol error, and the status 9 is outside the fixed table,
so the claim also demands an unrecognized-response error; the decoder
instead stores no underlying error at all; the same happens for a
correct command byte 8 with the unknown status 9. -/
theorem c2_decoder_counterexample :
    newCommandErrorFromAPNSResponse [0, 9, 170, 187, 204, 221] = none
    ∧ ¬ (newCommandErrorFromAPNSResponse [0, 9, 170, 187, 204, 221]
          = some unrecognizedResponseMsg)
    ∧ newCommandErrorFromAPNSResponse [8, 9, 170, 187, 204, 221] = none := by decide

/-- C2 (amended): for every 6-byte input the decoder ignores byte 0;
the identifier is the hex of bytes 2..6 and the error is the table
description for byte 1 when present, and no underlying error (not an
unrecognized-response error) when the status is outside the table; the
unrecognized-response error is produced exactly for inputs whose length
differs from 6. -/
theorem c2_decoder_amended :
    (∀ b0 b1 b2 b3 b4 b5 : Nat,
       newCommandErrorFromAPNSResponse [b0, b1, b2, b3, b4, b5]
         = (pushNotificationErrorStatuses (b1 % 256)).map
             (fun desc => "apns: ".toList ++ desc ++ " for notification #".toList ++
                          hexEncodeToString [b2, b3, b4, b5]))
    ∧ (∀ data : List Nat, data.length ≠ 6 →
        newCommandErrorFromAPNSResponse data = some unrecognizedResponseMsg) := by
  constructor
  · intro b0 b1 b2 b3 b4 b5
    simp only [newCommandErrorFromAPNSResponse, List.length_cons, List.length_nil]
    norm_num
    cases pushNotificationErrorStatuses (b1 % 256) <;> simp [List.getD]
  · intro data h
    simp [newCommandErrorFromAPNSResponse, h]

/-- C2 witness: the amended theorem applied to the 2-byte input. -/
theorem c2_decoder_amended_witness :
    newCommandErrorFromAPNSResponse [8, 8] = some unrecognizedResponseMsg :=
  c2_decoder_amended.2 [8, 8] (by decide)

/-- C3 counterexample: an APNS error response is read (6 bytes,
status 8) while no receiver waits on the command's unbuffered error
channel; the non-blocking send drops the delivery, so nothing reaches
the private channel even though the process-wide signal carries the
error - refuting delivery always happens; and when the read also hits
EOF with receivers waiting, the private channel receives two errors
(the APNS error and the peer-closed error) - refuting exactly once. -/
theorem c3_private_channel_counterexample :
    (loopStep ⟨.ok [2], .noErr, 6, [8, 8, 170, 187, 204, 221], .noErr, false⟩ false).cmdDeliveries = []
    ∧ (loopStep ⟨.ok [2], .noErr, 6, [8, 8, 170, 187, 204, 221], .noErr, false⟩ false).signalDeliveries
        = [.apnsResponse (some ("apns: Invalid token for notification #aabbccdd".toList))]
    ∧ (loopStep ⟨.ok [2], .noErr, 6, [8, 8, 170, 187, 204, 221], .eofErr, true⟩ true).cmdDeliveries.length = 2 := by decide

/-- C3 (amended): every error a command execution produces is sent on
the worker's process-wide error signal; delivery on the command's
private channel is best-effort - when a receiver is ready at each
non-blocking send the private channel receives exactly the same errors
as the signal, and at most two errors are ever offered to it. -/
theorem c3_delivery_amended : ∀ (enc : Except WorkerErr (List Nat)) (w : WriteErrKind)
    (rc : Nat) (buf : List Nat) (re : ReadErrKind),
    (loopStep ⟨enc, w, rc, buf, re, true⟩ true).cmdDeliveries
      = (loopStep ⟨enc, w, rc, buf, re, true⟩ true).signalDeliveries
    ∧ (loopStep ⟨enc, w, rc, buf, re, true⟩ true).cmdDeliveries.length ≤ 2 := by
  intro enc w rc buf re
  cases enc <;> cases w <;> cases re <;> by_cases h : rc > 0 <;>
    simp [loopStep, executeCommand, h]

/-- C4 counterexample: after a clean write, a read that returns zero
bytes with EOF makes the worker deliver the peer-closed error to the
command's error channel (a receiver is waiting) and to the process-wide
stream, refuting the claim that no error is delivered to the command's
error channel in that case. -/
theorem c4_eof_zero_bytes_counterexample :
    (loopStep ⟨.ok [2], .noErr, 0, [0, 0, 0, 0, 0, 0], .eofErr, true⟩ true).cmdDeliveries
      = [.peerClosedAfterRead]
    ∧ (loopStep ⟨.ok [2], .noErr, 0, [0, 0, 0, 0, 0, 0], .eofErr, true⟩ true).signalDeliveries
      = [.peerClosedAfterRead] := by decide

/-- C4 (amended): a timeout with zero bytes is success - no error is
raised or delivered, no reconnect is scheduled, the worker re-signals
ready and closes the channel once; EOF with zero bytes schedules a
reconnect AND raises the peer-closed error, which goes to the
process-wide stream and, when a receiver waits, to the command's error
channel; the worker does not re-signal ready and closes the channel
once. -/
theorem c4_zero_byte_read_amended : ∀ (nb buf : List Nat) (rA rL : Bool),
    loopStep ⟨.ok nb, .noErr, 0, buf, .timeoutErr, rA⟩ rL = ⟨[], [], false, true, 1⟩
    ∧ loopStep ⟨.ok nb, .noErr, 0, buf, .eofErr, rA⟩ rL
        = ⟨(if rL then [.peerClosedAfterRead] else []), [.peerClosedAfterRead], true, false, 1⟩ := by
  intro nb buf rA rL
  constructor <;> cases rL <;> simp [loopStep, executeCommand]

/-- C5: the feedback read loop passes the whole 38-byte buffer to the
entry decoder and discards its error; on the stream full record,
10-byte short read, EOF, the call returns two entries (the second
decoded from the half-stale buffer) and a nil error - the scan is not
aborted and no unrecognized-entry error is surfaced, although the
decoder does produce that error for the actual 10-byte record. -/
theorem c5_feedback_short_read_bug :
    checkFeedbackLoop [] [⟨38, feedbackRec1, .noErr⟩, ⟨10, feedbackShortBuf, .noErr⟩,
                          ⟨0, feedbackShortBuf, .eofErr⟩]
      = some ([⟨1, hexEncodeToString (List.replicate 32 0)⟩,
               ⟨2, hexEncodeToString ([255, 255, 255, 255] ++ List.replicate 28 0)⟩], none)
    ∧ (FeedbackResponse.addEntryFromBytes [] (feedbackShortBuf.take 10)).2
        = some unrecognizedEntryMsg := by decide

/-- C6 counterexample: `nReserved` satisfies none of the claim's
failure conditions - its token decodes to 32 bytes, its identifier to
4 bytes, its aps object is present - yet encoding fails with the
reserved-field error because a custom top-level field is named aps. -/
theorem c6_reserved_aps_counterexample :
    deviceTokenOk nReserved = true ∧ identifierOk nReserved = true
    ∧ (match nReserved.payload with
       | some p => p.aps.isSome
       | none => false) = true
    ∧ Notification.bytes nReserved = .error (.message apsReservedMsg) := by decide

/-- C6 (amended): encoding fails exactly when the token hex-decode
fails or yields other than 32 bytes, the payload fails to serialize
(aps absent, or a custom field named aps - the reserved-field error the
claim omits), the serialized payload exceeds 2048 bytes, or the
identifier hex-decode fails or yields other than 4 bytes; a payload of
exactly 2048 bytes encodes and one of 2049 bytes is rejected. -/
theorem c6_encode_conditions_amended :
    (∀ n : Notification,
       encodeOk (Notification.bytes n) = (deviceTokenOk n && payloadOk n && identifierOk n))
    ∧ payloadJSONLength n2048 = 2048
    ∧ encodeOk (Notification.bytes n2048) = true
    ∧ payloadJSONLength n2049 = 2049
    ∧ Notification.bytes n2049 = .error (.message payloadSizeMsg) := by
  refine ⟨c6iff, ?_, ?_, ?_, ?_⟩
  · unfold n2048
    have := payloadLenReplicate 2028
    omega
  · have h := marshalAlertReplicate 2028
    have hle : ([123, 34, 97, 112, 115, 34, 58, 123, 34, 97, 108, 101, 114, 116, 34, 58, 34] ++
                (List.replicate 2028 97 ++ [34, 125, 125])).length ≤ 2048 := by
      simp only [List.length_append, List.length_replicate, List.length_cons,
                 List.length_nil]
      omega
    have hb := bytesTok64Ok _ _ h hle
    unfold n2048
    rw [hb]
    rfl
  · unfold n2049
    have := payloadLenReplicate 2029
    omega
  · have h := marshalAlertReplicate 2029
    have hgt : ([123, 34, 97, 112, 115, 34, 58, 123, 34, 97, 108, 101, 114, 116, 34, 58, 34] ++
                (List.replicate 2029 97 ++ [34, 125, 125])).length > 2048 := by
      simp only [List.length_append, List.length_replicate, List.length_cons,
                 List.length_nil]
      omega
    have hb := bytesTok64TooBig _ _ h hgt
    unfold n2049
    exact hb

/-- C7: submission is non-blocking - when the queue holds fewer
commands than its capacity the command is appended, nothing is closed
and no error is returned; when the queue is at capacity the queue is
untouched, the command's error channel is closed and the queue-full
error is returned synchronously. -/
theorem c7_submit_non_blocking : ∀ (q : List Nat) (cap : Nat) (c : Nat),
    (q.length < cap → clientExecuteCommand q cap c = ⟨q ++ [c], false, none⟩)
    ∧ (q.length = cap → clientExecuteCommand q cap c = ⟨q, true, some queueFullMsg⟩) := by
  intro q cap c
  constructor
  · intro h; simp [clientExecuteCommand, chanTrySend, h]
  · intro h; simp [clientExecuteCommand, chanTrySend, h]

/-- C7 witness: submits to an empty queue of capacity one, then to the
full queue. -/
theorem c7_submit_non_blocking_witness :
    clientExecuteCommand ([] : List Nat) 1 7 = ⟨[7], false, none⟩
    ∧ clientExecuteCommand ([7] : List Nat) 1 8 = ⟨[7], true, some queueFullMsg⟩ :=
  ⟨(c7_submit_non_blocking [] 1 7).1 (by decide),
   (c7_submit_non_blocking [7] 1 8).2 (by decide)⟩

/-- C8: along every lifecycle path - queue-full rejection, or dequeue
followed by one worker loop pass (covering successful dispatch, encode
failure and APNS error response alike) - the command's error channel is
closed exactly once. -/
theorem c8_error_channel_closed_once : ∀ (q : List Nat) (cap : Nat) (c : Nat)
    (inp : ExecInput) (rL : Bool),
    commandTotalCloses q cap c inp rL = 1 := by
  intro q cap c inp rL
  by_cases h : q.length < cap <;>
    simp [commandTotalCloses, clientExecuteCommand, chanTrySend, h, loopStep]

/-- C9: a 62-hex-character (31-byte) device token is rejected, but the
error message is the source's fixed wording, which does not contain the
string "length 31 bytes" (nor even "31"); a 64-hex-character token
encodes.  The repo's own test expects the actual decoded length in the
message, so the code contradicts its test. -/
theorem c9_device_token_message_bug :
    Notification.bytes n62 = .error (.message deviceTokenMsg)
    ∧ containsSub "length 31 bytes".toList deviceTokenMsg = false
    ∧ containsSub "31".toList deviceTokenMsg = false
    ∧ encodeOk (Notification.bytes nNoExp) = true := by decide

/-- C10: the feedback-tuple decoder accepts every 38-byte input,
producing an entry whose timestamp seconds are the big-endian uint32 of
bytes 0..4 and whose token is the hex of bytes 6..38; the two bytes of
the token-length field are universally quantified and absent from the
result, so they are never inspected. -/
theorem c10_feedback_tuple_decoder : ∀ (devs : List FeedbackDeviceEntry)
    (pre post : List Nat) (a b : Nat),
    pre.length = 4 → post.length = 32 →
    FeedbackResponse.addEntryFromBytes devs (pre ++ a :: b :: post)
      = (devs ++ [⟨be32val pre, hexEncodeToString post⟩], none) := by
  intro devs pre post a b h4 h32
  have hlen : (pre ++ a :: b :: post).length = 38 := by simp [h4, h32]
  have htake : (pre ++ a :: b :: post).take 4 = pre := by
    rw [← h4]; exact List.take_left pre _
  have hdrop : (pre ++ a :: b :: post).drop 6 = post := by
    have h6 : (6 : Nat) = pre.length + 2 := by omega
    rw [h6, List.drop_append]; rfl
  simp [FeedbackResponse.addEntryFromBytes, hlen, htake, hdrop]

/-- C10 witness: a record whose length field holds the garbage value
`[222, 173]` instead of 32 is still decoded. -/
theorem c10_feedback_tuple_decoder_witness :
    FeedbackResponse.addEntryFromBytes [] ([0, 0, 0, 1] ++ 222 :: 173 :: List.replicate 32 0)
      = ([⟨1, hexEncodeToString (List.replicate 32 0)⟩], none) := by
  have h := c10_feedback_tuple_decoder [] [0, 0, 0, 1] (List.replicate 32 0) 222 173
    (by decide) (by decide)
  rw [h]; decide
